import Mathlib

/-!
# Verification of the ai-voice-tuning orchestration core

A shallow embedding, in Lean 4, of the job-orchestration core of the
`ai-voice-tuning` repository:

* the retention sweeper (`FileManager.cleanupOldFiles` in
  `src/services/fileManager.js` and `CleanupScheduler.cleanupDirectory` in
  `src/utils/cleanup.js`),
* the worker invoker (`PythonService.processAudio` and
  `PythonService.parseErrorMessage` in `src/services/pythonService.js`),
* the job orchestrator and registry (`processAudio` in
  `src/controllers/processController.js`, `handleUpload` in
  `src/controllers/uploadController.js`, `getAudioInfo` in
  `src/controllers/infoController.js`).

Pure computations (string parsing, age comparison) are translated as Lean
functions; the event-driven subprocess handling is translated as a fold over
an explicit event list; the orchestrator's await-separated segments are
translated as an explicit small-step machine so that interleavings of
concurrent requests can be examined.
-/

namespace AiVoiceTuning

/-! ## Retention sweeper

The filesystem visible to one sweep is modelled as the directory listing
returned by `readdir`: a list of entries, each a regular file (with its
`mtime`) or a subdirectory.  A file can be removed out of band while the
sweep is running; the two race points that the code distinguishes are
captured by two flags per entry:

* `presentAtStat` — the entry still exists when the sweep first `stat`s it
  (a failed `stat` is caught and the entry is skipped in both
  implementations);
* `presentAtUnlink` — the entry still exists at the later point where
  `CleanupScheduler.isFileOld` stats it a second time and `unlink` is
  attempted (absence there makes `unlink` fail with `ENOENT`, which both
  `deleteFile` implementations catch and turn into a `false` return).

Times are integers (milliseconds since the epoch). -/

/-- A directory entry as seen by `fs.stat`: a regular file with its
last-modified time, or a subdirectory. -/
inductive FsKind where
  | file (mtime : Int)
  | dir
deriving DecidableEq

/-- One entry of a directory listing, together with the out-of-band-deletion
schedule for this sweep (see the section comment). -/
structure DirEntry where
  name : String
  kind : FsKind
  presentAtStat : Bool
  presentAtUnlink : Bool
deriving DecidableEq

/-- `now - mtime > maxAge` for a regular file; `false` for a directory
(directories are never deleted by either sweep). -/
def DirEntry.oldFile (now maxAge : Int) (e : DirEntry) : Bool :=
  match e.kind with
  | .file m => decide (now - m > maxAge)
  | .dir => false

/-- `FileManager.cleanupOldFiles` (fileManager.js lines 110–151), as a
structural recursion over the directory listing.  For each entry: a failed
`stat` (entry already gone) is caught and skipped; directories are skipped;
an old file is passed to `FileManager.deleteFile`, which `unlink`s it and
catches `ENOENT`, and then `deletedCount` is incremented **without checking
`deleteFile`'s return value**.  Returns the final `deletedCount` together
with the names of the files actually removed from disk by this sweep. -/
def cleanupOldFiles (now maxAge : Int) : List DirEntry → Nat × List String
  | [] => (0, [])
  | e :: es =>
    let rest := cleanupOldFiles now maxAge es
    if e.presentAtStat then
      match e.kind with
      | .dir => rest
      | .file m =>
        if now - m > maxAge then
          (rest.1 + 1, (if e.presentAtUnlink then [e.name] else []) ++ rest.2)
        else rest
    else rest

/-- `CleanupScheduler.cleanupDirectory` (cleanup.js lines 61–99), same shape:
a failed first `stat` is caught and skipped; directories are skipped;
`isFileOld` stats the file a second time (a file gone by then yields
`false`, so the entry is skipped) and compares `now - mtime > maxAge`;
`CleanupScheduler.deleteFile` returns `false` on `ENOENT`, and
`deletedCount` is incremented **only when `deleteFile` returned `true`**. -/
def cleanupDirectory (now maxAge : Int) : List DirEntry → Nat × List String
  | [] => (0, [])
  | e :: es =>
    let rest := cleanupDirectory now maxAge es
    if e.presentAtStat then
      match e.kind with
      | .dir => rest
      | .file m =>
        if e.presentAtUnlink && decide (now - m > maxAge) then
          (rest.1 + 1, e.name :: rest.2)
        else rest
    else rest

/-- Sweeping a directory that may not exist: both implementations begin with
`fs.mkdir(directory, { recursive: true })`, so a missing directory is
created empty and `readdir` then lists no entries. -/
def sweepDir (now maxAge : Int) (listing : Option (List DirEntry)) : Nat × List String :=
  match listing with
  | none => (0, [])
  | some es => cleanupOldFiles now maxAge es

/-- The directory listing a subsequent sweep sees when no files are created
in between: entries that were on disk throughout this sweep and were not
unlinked by it (old files still present at unlink time are removed by
`cleanupOldFiles`; entries that vanished out of band are gone as well).
The fresh listing carries no pending out-of-band deletions. -/
def afterSweep (now maxAge : Int) (es : List DirEntry) : List DirEntry :=
  (es.filter fun e => e.presentAtStat && e.presentAtUnlink && !(e.oldFile now maxAge)).map
    fun e => { e with presentAtStat := true, presentAtUnlink := true }

/-- A sweep with no out-of-band deletions: every listed entry stays on disk
for the whole run. -/
def noRaces (es : List DirEntry) : Prop :=
  ∀ e ∈ es, e.presentAtStat = true ∧ e.presentAtUnlink = true

instance (es : List DirEntry) : Decidable (noRaces es) := by
  unfold noRaces
  infer_instance

/-! ## Worker stderr parsing

`PythonService.parseErrorMessage` (pythonService.js lines 103–123) runs the
JavaScript regular expression `ERROR:([A-Z_]+):(.+)` over the accumulated
stderr text and maps the captured code through a fixed table.  The regex is
embedded over `List Char`:

* `[A-Z_]+` is a maximal nonempty run of ASCII uppercase letters or
  underscores — shortening the greedy run can never help, because the
  character after a shortened run is again in `[A-Z_]` and hence not the
  `:` the pattern requires next, so the greedy run needs no backtracking;
* `.` matches any character except a JavaScript line terminator, and `(.+)`
  is greedy with nothing after it, so the detail group is the maximal such
  run and must be nonempty;
* `String.prototype.match` returns the match at the leftmost starting
  position, modelled by scanning positions left to right. -/

/-- A character matched by the class `[A-Z_]` (ASCII uppercase or
underscore). -/
def isErrorCodeChar (c : Char) : Bool :=
  c.isUpper || c = '_'

/-- JavaScript regex line terminators, which `.` does not match. -/
def isLineTerminator (c : Char) : Bool :=
  c = '\n' || c = '\r' || c = '\u2028' || c = '\u2029'

/-- White space stripped by JavaScript `String.prototype.trim`. -/
def isJsSpace (c : Char) : Bool :=
  c = ' ' || c = '\t' || c = '\n' || c = '\r' || c = '\x0b' || c = '\x0c' ||
  c = '\u00A0' || c = '\uFEFF' || c = '\u2028' || c = '\u2029'

/-- JavaScript `trim` on a character list: drop white space from both
ends. -/
def jsTrimList (s : List Char) : List Char :=
  ((s.dropWhile isJsSpace).reverse.dropWhile isJsSpace).reverse

/-- JavaScript `trim` on a string. -/
def jsTrim (s : String) : String :=
  String.mk (jsTrimList s.data)

/-- Does `ERROR:([A-Z_]+):(.+)` match starting exactly at the head of the
list?  Returns the two capture groups (code, detail) on success. -/
def matchErrorAt : List Char → Option (List Char × List Char)
  | 'E' :: 'R' :: 'R' :: 'O' :: 'R' :: ':' :: rest =>
    let code := rest.takeWhile isErrorCodeChar
    match rest.dropWhile isErrorCodeChar with
    | ':' :: tail =>
      let detail := tail.takeWhile fun c => !(isLineTerminator c)
      if code.isEmpty || detail.isEmpty then none else some (code, detail)
    | _ => none
  | _ => none

/-- The leftmost match of `ERROR:([A-Z_]+):(.+)` in the list, as produced by
`errorOutput.match(...)`. -/
def findErrorMatch : List Char → Option (List Char × List Char)
  | [] => none
  | c :: cs =>
    match matchErrorAt (c :: cs) with
    | some r => some r
    | none => findErrorMatch cs

/-- `PythonService.parseErrorMessage` (pythonService.js lines 103–123): if
the structured pattern matches, map the code through the fixed table
(`errorMessages[errorType] || generic`), with the detail group trimmed;
otherwise return the trimmed raw stderr, or the fixed fallback when that is
empty (`errorOutput.trim() || 'Unknown Python processing error'`). -/
def parseErrorMessage (errorOutput : String) : String :=
  match findErrorMatch errorOutput.data with
  | some (codeChars, detailChars) =>
    let errorType := String.mk codeChars
    let errorMessage := String.mk (jsTrimList detailChars)
    if errorType = "FILE_NOT_FOUND" then "Audio file not found"
    else if errorType = "INVALID_ARGUMENTS" then
      "Invalid arguments provided to Python engine"
    else if errorType = "PROCESSING_FAILED" then
      "Audio processing failed: " ++ errorMessage
    else "Processing error: " ++ errorMessage
  | none =>
    let raw := jsTrim errorOutput
    if raw = "" then "Unknown Python processing error" else raw

/-! ## Worker invoker

`PythonService.processAudio` (pythonService.js lines 17–96) wraps a spawned
subprocess in a promise.  The callbacks — `stdout`/`stderr` `data`
listeners, the `setTimeout` timer, the `close` listener and the `error`
(spawn-failure) listener — run one at a time on the event loop, so one
invocation is modelled as a fold over the sequence of events in the order
the event loop delivers them.  Real time is abstracted into that order: the
timer firing before the subprocess exits is the event list containing
`timeoutFire` before `close`.  The `processCompleted` flag and the list of
promise settlements are carried in the state, so double resolution would be
visible as a `settled` list of length two. -/

/-- Outcome of one invocation: the resolved output path, or the rejection
message. -/
inductive InvokeResult where
  | ok (outputPath : String)
  | err (message : String)
deriving DecidableEq

/-- One event-loop callback of an invocation. -/
inductive PEvent where
  | stdoutData (s : String)
  | stderrData (s : String)
  | timeoutFire
  | close (code : Int)
  | errorEvent (message : String)
deriving DecidableEq

/-- Events whose handler can settle the promise (timer, `close`,
`error`). -/
def PEvent.settles : PEvent → Bool
  | .stdoutData _ => false
  | .stderrData _ => false
  | .timeoutFire => true
  | .close _ => true
  | .errorEvent _ => true

/-- The timeout rejection message (pythonService.js line 35). -/
def timeoutMessage (timeoutMs : Nat) : String :=
  "Processing timeout: exceeded " ++ toString timeoutMs ++ "ms"

/-- The mutable state of one `processAudio` invocation: the two accumulated
streams, the `processCompleted` flag, whether `python.kill` was called, and
every settlement of the promise so far. -/
structure InvokeState where
  outputPath : String
  errorOutput : String
  processCompleted : Bool
  killed : Bool
  settled : List InvokeResult
deriving DecidableEq

/-- State at the start of an invocation (lines 24–27). -/
def initInvokeState : InvokeState :=
  ⟨"", "", false, false, []⟩

/-- One event-loop callback of `processAudio` (pythonService.js lines
30–94): data events append to the accumulators; the timer kills the process
and rejects with `timeoutMessage` unless `processCompleted` is already set;
`close` with code 0 resolves with the trimmed stdout or rejects when that is
empty; `close` with nonzero code rejects with `parseErrorMessage` of the
accumulated stderr; the spawn `error` event rejects with the prefixed
message.  Every settling handler first checks `processCompleted` and is a
no-op when it is set. -/
def stepEvent (timeoutMs : Nat) (st : InvokeState) : PEvent → InvokeState
  | .stdoutData s => { st with outputPath := st.outputPath ++ s }
  | .stderrData s => { st with errorOutput := st.errorOutput ++ s }
  | .timeoutFire =>
    if st.processCompleted then st
    else
      { st with processCompleted := true, killed := true,
                settled := st.settled ++ [.err (timeoutMessage timeoutMs)] }
  | .close code =>
    if st.processCompleted then st
    else if code = 0 then
      if jsTrim st.outputPath = "" then
        { st with processCompleted := true,
                  settled := st.settled ++
                    [.err "Python process succeeded but returned no output path"] }
      else
        { st with processCompleted := true,
                  settled := st.settled ++ [.ok (jsTrim st.outputPath)] }
    else
      { st with processCompleted := true,
                settled := st.settled ++ [.err (parseErrorMessage st.errorOutput)] }
  | .errorEvent m =>
    if st.processCompleted then st
    else
      { st with processCompleted := true,
                settled := st.settled ++ [.err ("Failed to start Python engine: " ++ m)] }

/-- One whole invocation: fold the delivered events over the initial
state. -/
def runInvoker (timeoutMs : Nat) (evs : List PEvent) : InvokeState :=
  evs.foldl (stepEvent timeoutMs) initInvokeState

/-- The stdout text accumulated by the data events of a list. -/
def stdoutAcc : List PEvent → String
  | [] => ""
  | .stdoutData s :: es => s ++ stdoutAcc es
  | _ :: es => stdoutAcc es

/-- The stderr text accumulated by the data events of a list. -/
def stderrAcc : List PEvent → String
  | [] => ""
  | .stderrData s :: es => s ++ stderrAcc es
  | _ :: es => stderrAcc es

/-! ## Job registry and orchestrator

`handleUpload` (uploadController.js) creates a record in the shared
in-memory map `app.locals.audioFiles`; `processAudio`
(processController.js) drives it through the state machine; `getAudioInfo`
(infoController.js) reads it back.  The map is modelled as an association
list, a record as a structure (the source's `error` field is named
`errorMessage` here, matching the specification's vocabulary; the source's
status strings are the constructors of `JobStatus`).

`processAudio` suspends at two `await`s — the `fs.access` existence check
and the worker invocation — so one request is three atomic segments:
(0) look the record up and start the access check; (1) on access success
assign `status = 'processing'` and start the worker, on access failure
respond 404 leaving the record untouched; (2) on worker settlement perform
the terminal assignments.  `stepCall` is that segment machine; `callTrace`
runs a single request alone; `runSchedule` interleaves two requests for the
same id under an explicit schedule. -/

/-- The source's status strings. -/
inductive JobStatus where
  | uploaded
  | processing
  | completed
  | failed
deriving DecidableEq

/-- One job record of `app.locals.audioFiles` (uploadController.js lines
150–167, plus the fields added by processController.js lines 244–267). -/
structure AudioData where
  filename : String
  size : Nat
  duration : Nat
  format : String
  uploadedAt : Nat
  status : JobStatus
  filepath : String
  outputPath : Option String := none
  errorMessage : Option String := none
  processingTime : Option Nat := none
  completedAt : Option Nat := none
  failedAt : Option Nat := none
deriving DecidableEq

/-- The record stored by `handleUpload`: fresh status `uploaded`, duration 0
(the `getAudioDuration` placeholder), no processing fields. -/
def uploadRecord (filename : String) (size : Nat) (format filepath : String)
    (now : Nat) : AudioData :=
  { filename := filename, size := size, duration := 0, format := format,
    uploadedAt := now, status := .uploaded, filepath := filepath }

/-- The in-memory job registry `app.locals.audioFiles`. -/
abbrev Registry := List (String × AudioData)

/-- `handleUpload`: allocate an id and store the fresh record. -/
def createJob (reg : Registry) (audioId filename : String) (size : Nat)
    (format filepath : String) (now : Nat) : Registry :=
  (audioId, uploadRecord filename size format filepath now) :: reg

/-- `audioFiles[audioId]` (infoController.js line 21, processController.js
line 213). -/
def getJob (reg : Registry) (audioId : String) : Option AudioData :=
  (reg.find? fun p => p.1 == audioId).map Prod.snd

/-- Replace the record stored under an id. -/
def updateJob (reg : Registry) (audioId : String) (a : AudioData) : Registry :=
  reg.map fun p => if p.1 == audioId then (p.1, a) else p

/-- Outcome of one `processAudio` request, as seen by the HTTP caller. -/
inductive ProcessResult where
  | notFound
  | inputMissing
  | completedResult (outputPath : String) (processingTime : Nat)
  | failedResult (errorMessage : String)
deriving DecidableEq

/-- `processAudio` on one record whose id was found, given whether
`audioData.filepath` exists on disk and the worker settlement
(processController.js lines 222–276): a missing file responds 404 before
any mutation; otherwise the worker outcome drives the terminal
assignments. -/
def processRecord (fileExists : Bool) (invoke : InvokeResult) (now dur : Nat)
    (a : AudioData) : ProcessResult × AudioData :=
  if fileExists then
    match invoke with
    | .ok p =>
      (.completedResult p dur,
       { a with status := .completed, outputPath := some p,
                processingTime := some dur, completedAt := some now })
    | .err m =>
      (.failedResult m,
       { a with status := .failed, errorMessage := some m, failedAt := some now })
  else (.inputMissing, a)

/-- `processAudio` at the registry level: 404 `notFound` when the id is
absent; a missing source file returns `inputMissing` with the registry
untouched; otherwise the terminal record replaces the stored one. -/
def processJob (reg : Registry) (audioId : String) (fileExists : Bool)
    (invoke : InvokeResult) (now dur : Nat) : ProcessResult × Registry :=
  match getJob reg audioId with
  | none => (.notFound, reg)
  | some a =>
    if fileExists then
      let r := processRecord true invoke now dur a
      (r.1, updateJob reg audioId r.2)
    else (.inputMissing, reg)

/-- Program counter and response of one in-flight `processAudio` request:
pc 0 before the access check resolves, pc 1 before the worker settles, pc 2
after the response is sent. -/
structure CallState where
  pc : Nat
  result : Option ProcessResult
deriving DecidableEq

/-- A request that has just looked its record up. -/
def initCallState : CallState :=
  ⟨0, none⟩

/-- One atomic segment of a `processAudio` request (see the section
comment), acting on the shared record. -/
def stepCall (fileExists : Bool) (invoke : InvokeResult) (now dur : Nat)
    (a : AudioData) (c : CallState) : AudioData × CallState :=
  match c.pc with
  | 0 =>
    if fileExists then
      ({ a with status := .processing }, ⟨1, none⟩)
    else
      (a, ⟨2, some .inputMissing⟩)
  | 1 =>
    match invoke with
    | .ok p =>
      ({ a with status := .completed, outputPath := some p,
                processingTime := some dur, completedAt := some now },
       ⟨2, some (.completedResult p dur)⟩)
    | .err m =>
      ({ a with status := .failed, errorMessage := some m, failedAt := some now },
       ⟨2, some (.failedResult m)⟩)
  | _ => (a, c)

/-- The record states a single uninterleaved request takes the shared record
through: initial, after the `processing` assignment (or untouched on a
missing file), and after the terminal assignment. -/
def callTrace (fileExists : Bool) (invoke : InvokeResult) (now dur : Nat)
    (a : AudioData) : List AudioData :=
  let s1 := stepCall fileExists invoke now dur a initCallState
  let s2 := stepCall fileExists invoke now dur s1.1 s1.2
  [a, s1.1, s2.1]

/-- The specification's field invariant: while `uploaded` or `processing`
neither `outputPath` nor `errorMessage` is populated; in a terminal state
exactly the matching one is. -/
def exclusiveOutputError (a : AudioData) : Prop :=
  match a.status with
  | .uploaded => a.outputPath = none ∧ a.errorMessage = none
  | .processing => a.outputPath = none ∧ a.errorMessage = none
  | .completed => a.outputPath ≠ none ∧ a.errorMessage = none
  | .failed => a.outputPath = none ∧ a.errorMessage ≠ none

/-- Two concurrent `processAudio` requests for the same id, sharing the
record: `false` schedules a segment of the first request, `true` one of the
second. -/
def runSchedule (fileExists : Bool) (i1 i2 : InvokeResult) (now dur : Nat)
    (sched : List Bool) (a : AudioData) : AudioData × CallState × CallState :=
  sched.foldl
    (fun s who =>
      if who then
        let r := stepCall fileExists i2 now dur s.1 s.2.2
        (r.1, s.2.1, r.2)
      else
        let r := stepCall fileExists i1 now dur s.1 s.2.1
        (r.1, r.2, s.2.2))
    (a, initCallState, initCallState)

/-- The terminal response a request produces from a worker settlement. -/
def terminalResult (invoke : InvokeResult) (dur : Nat) : ProcessResult :=
  match invoke with
  | .ok p => .completedResult p dur
  | .err m => .failedResult m

/-! ## Theorems -/

/-- Helper: when no file that survived the first `stat` vanishes before the
`unlink`, `cleanupOldFiles` removes exactly the still-present old regular
files, in listing order, and its count is the number of removed files. -/
theorem cleanupOldFiles_eq_filter (now maxAge : Int) (es : List DirEntry)
    (h : ∀ e ∈ es, e.presentAtStat = true → e.presentAtUnlink = true) :
    cleanupOldFiles now maxAge es =
      ((es.filter fun e => e.presentAtStat && e.oldFile now maxAge).length,
       (es.filter fun e => e.presentAtStat && e.oldFile now maxAge).map DirEntry.name) := by
  induction es with
  | nil => rfl
  | cons e es ih =>
    have he : e.presentAtStat = true → e.presentAtUnlink = true :=
      h e (List.mem_cons_self e es)
    have ih2 := ih fun x hx => h x (List.mem_cons_of_mem e hx)
    unfold cleanupOldFiles
    by_cases hp : e.presentAtStat = true
    · cases hk : e.kind with
      | dir => simp [hp, hk, ih2, DirEntry.oldFile, List.filter_cons]
      | file m =>
        by_cases ho : now - m > maxAge
        · have hu : e.presentAtUnlink = true := he hp
          simp [hp, hk, hu, ho, ih2, DirEntry.oldFile, List.filter_cons]
        · simp [hp, hk, ho, ih2, DirEntry.oldFile, List.filter_cons]
    · simp [hp, ih2, List.filter_cons, Bool.and_eq_true]

/-- C7: over a directory listing in which no file that survived the first
`stat` vanishes before the `unlink`, the sweep deletes exactly the entries
that are regular files with `now - mtime > maxAge` (subdirectories and
entries already absent at `stat` time are skipped without error), returns
the number of deleted files, and a missing directory is created and swept
to a count of 0. -/
theorem sweep_deletes_exactly_old (now maxAge : Int) (es : List DirEntry)
    (h : ∀ e ∈ es, e.presentAtStat = true → e.presentAtUnlink = true) :
    (sweepDir now maxAge (some es)).2 =
        (es.filter fun e => e.presentAtStat && e.oldFile now maxAge).map DirEntry.name
    ∧ (sweepDir now maxAge (some es)).1 =
        (es.filter fun e => e.presentAtStat && e.oldFile now maxAge).length
    ∧ sweepDir now maxAge none = (0, []) := by
  have hc := cleanupOldFiles_eq_filter now maxAge es h
  refine ⟨?_, ?_, rfl⟩
  · show (cleanupOldFiles now maxAge es).2 = _
    rw [hc]
  · show (cleanupOldFiles now maxAge es).1 = _
    rw [hc]

/-- Witness for C7, the spec's concrete scenario: at `now = 600000` with
`maxAge = 300000`, a file last modified 10 minutes ago (mtime 0) is deleted
and a file last modified 1 minute ago (mtime 540000) is kept; the count
is 1. -/
theorem sweep_deletes_exactly_old_witness :
    (∀ e ∈ [DirEntry.mk "old.wav" (.file 0) true true,
            DirEntry.mk "new.wav" (.file 540000) true true],
        e.presentAtStat = true → e.presentAtUnlink = true)
    ∧ (sweepDir 600000 300000 (some [DirEntry.mk "old.wav" (.file 0) true true,
          DirEntry.mk "new.wav" (.file 540000) true true])).1 = 1
    ∧ (sweepDir 600000 300000 (some [DirEntry.mk "old.wav" (.file 0) true true,
          DirEntry.mk "new.wav" (.file 540000) true true])).2 = ["old.wav"] := by
  have h := sweep_deletes_exactly_old 600000 300000
    [DirEntry.mk "old.wav" (.file 0) true true,
     DirEntry.mk "new.wav" (.file 540000) true true] (by decide)
  exact ⟨by decide, h.2.1.trans (by decide), h.1.trans (by decide)⟩

/-- Helper: a sweep over a listing containing no old file deletes nothing
and returns 0. -/
theorem cleanupOldFiles_no_old (now maxAge : Int) (l : List DirEntry)
    (h : ∀ e ∈ l, e.oldFile now maxAge = false) :
    cleanupOldFiles now maxAge l = (0, []) := by
  induction l with
  | nil => rfl
  | cons e es ih =>
    have he := h e (List.mem_cons_self e es)
    have ih2 := ih fun x hx => h x (List.mem_cons_of_mem e hx)
    unfold cleanupOldFiles
    cases hk : e.kind with
    | dir => simp [hk, ih2]
    | file m =>
      have hno : ¬(now - m > maxAge) := by
        simpa [DirEntry.oldFile, hk] using he
      simp [hk, ih2, hno]

/-- C8: sweep is idempotent — over the directory state left behind by a
sweep (no files created in between, same `now`), a second sweep deletes no
file and returns a count of 0. -/
theorem sweep_idempotent (now maxAge : Int) (es : List DirEntry) :
    cleanupOldFiles now maxAge (afterSweep now maxAge es) = (0, []) := by
  apply cleanupOldFiles_no_old
  intro e he
  simp only [afterSweep, List.mem_map, List.mem_filter] at he
  obtain ⟨x, ⟨_, hcond⟩, rfl⟩ := he
  simp only [Bool.and_eq_true, Bool.not_eq_true'] at hcond
  simpa [DirEntry.oldFile] using hcond.2

/-- C10 counterexample: a file that is old and still present at the first
`stat` but vanishes before the `unlink` (ENOENT) is included in
`FileManager.cleanupOldFiles`' returned count (it increments without
checking `deleteFile`'s return value) but not in
`CleanupScheduler.cleanupDirectory`'s, so on the same directory state the
two return different counts (1 versus 0) while neither deletes anything. -/
theorem cleanup_equiv_counterexample :
    cleanupOldFiles 600000 300000 [DirEntry.mk "a.wav" (.file 0) true false] = (1, [])
    ∧ cleanupDirectory 600000 300000 [DirEntry.mk "a.wav" (.file 0) true false] = (0, [])
    ∧ (1 : Nat) ≠ 0 := by decide

/-- C10 amended: on every directory state with no out-of-band deletion
during the sweep, `FileManager.cleanupOldFiles` and
`CleanupScheduler.cleanupDirectory` delete the same files and return equal
counts; a file that disappears between the age check and the `unlink` is
counted by the former and not by the latter. -/
theorem cleanup_equiv_noRaces (now maxAge : Int) (es : List DirEntry)
    (h : noRaces es) :
    cleanupOldFiles now maxAge es = cleanupDirectory now maxAge es := by
  induction es with
  | nil => rfl
  | cons e es ih =>
    obtain ⟨h1, h2⟩ := h e (List.mem_cons_self e es)
    have ih2 := ih fun x hx => h x (List.mem_cons_of_mem e hx)
    unfold cleanupOldFiles cleanupDirectory
    cases hk : e.kind with
    | dir => simp [h1, hk, ih2]
    | file m =>
      by_cases ho : now - m > maxAge <;> simp [h1, h2, hk, ih2, ho]

/-- C2 counterexample: on empty stderr the failure message produced by the
code is the fixed string "Unknown Python processing error" (as the
repository's own unit tests assert), not "Unknown processing error" as the
claim states. -/
theorem parseErrorMessage_empty_counterexample :
    parseErrorMessage "" = "Unknown Python processing error"
    ∧ parseErrorMessage "" ≠ "Unknown processing error" := by
  constructor
  · rfl
  · decide

/-- C2 amended: when the worker exits nonzero, the failure message is
computed from the accumulated stderr as follows: if stderr matches
`ERROR:<CODE>:<detail>`, the code is mapped by a fixed lookup table
(`FILE_NOT_FOUND` yields exactly "Audio file not found",
`INVALID_ARGUMENTS` yields "Invalid arguments provided to Python engine",
`PROCESSING_FAILED` yields "Audio processing failed: <detail>", and an
unrecognized code yields "Processing error: <detail>", the detail trimmed);
if no pattern matches, the message is the raw trimmed stderr text verbatim,
or the generic "Unknown Python processing error" when the trimmed stderr is
empty. -/
theorem parseErrorMessage_spec (s : String) :
    (∀ d, findErrorMatch s.data = some ("FILE_NOT_FOUND".data, d) →
        parseErrorMessage s = "Audio file not found")
    ∧ (∀ d, findErrorMatch s.data = some ("INVALID_ARGUMENTS".data, d) →
        parseErrorMessage s = "Invalid arguments provided to Python engine")
    ∧ (∀ d, findErrorMatch s.data = some ("PROCESSING_FAILED".data, d) →
        parseErrorMessage s = "Audio processing failed: " ++ String.mk (jsTrimList d))
    ∧ (∀ c d, findErrorMatch s.data = some (c, d) →
        String.mk c ≠ "FILE_NOT_FOUND" → String.mk c ≠ "INVALID_ARGUMENTS" →
        String.mk c ≠ "PROCESSING_FAILED" →
        parseErrorMessage s = "Processing error: " ++ String.mk (jsTrimList d))
    ∧ (findErrorMatch s.data = none → jsTrim s ≠ "" → parseErrorMessage s = jsTrim s)
    ∧ (findErrorMatch s.data = none → jsTrim s = "" →
        parseErrorMessage s = "Unknown Python processing error") := by
  refine ⟨?_, ?_, ?_, ?_, ?_, ?_⟩
  · intro d h
    unfold parseErrorMessage
    rw [h]
    rfl
  · intro d h
    unfold parseErrorMessage
    rw [h]
    rfl
  · intro d h
    unfold parseErrorMessage
    rw [h]
    rfl
  · intro c d h h1 h2 h3
    unfold parseErrorMessage
    rw [h]
    simp only
    rw [if_neg h1, if_neg h2, if_neg h3]
  · intro h hne
    unfold parseErrorMessage
    rw [h]
    simp only
    rw [if_neg hne]
  · intro h he
    unfold parseErrorMessage
    rw [h]
    simp only
    rw [if_pos he]

/-- Witness for the amended C2, the spec's concrete scenario: stderr
`ERROR:FILE_NOT_FOUND:Input file not found: /tmp/x.wav` maps to the fixed
string "Audio file not found". -/
theorem parseErrorMessage_spec_witness :
    findErrorMatch ("ERROR:FILE_NOT_FOUND:Input file not found: /tmp/x.wav").data
      = some ("FILE_NOT_FOUND".data, ("Input file not found: /tmp/x.wav").data)
    ∧ parseErrorMessage "ERROR:FILE_NOT_FOUND:Input file not found: /tmp/x.wav"
      = "Audio file not found" :=
  ⟨by decide,
   (parseErrorMessage_spec "ERROR:FILE_NOT_FOUND:Input file not found: /tmp/x.wav").1
     ("Input file not found: /tmp/x.wav").data (by decide)⟩

/-- Witness for the amended C10 on a concrete race-free listing. -/
theorem cleanup_equiv_noRaces_witness :
    noRaces [DirEntry.mk "old.wav" (.file 0) true true,
             DirEntry.mk "new.wav" (.file 540000) true true]
    ∧ cleanupOldFiles 600000 300000
        [DirEntry.mk "old.wav" (.file 0) true true,
         DirEntry.mk "new.wav" (.file 540000) true true] =
      cleanupDirectory 600000 300000
        [DirEntry.mk "old.wav" (.file 0) true true,
         DirEntry.mk "new.wav" (.file 540000) true true] :=
  ⟨by decide, cleanup_equiv_noRaces 600000 300000 _ (by decide)⟩

/-- Helper: appending strings concatenates the underlying character
lists. -/
theorem string_data_append (a b : String) : (a ++ b).data = a.data ++ b.data := by
  cases a
  cases b
  rfl

/-- Helper: the empty string is a left unit. -/
theorem string_empty_append (s : String) : "" ++ s = s := by
  cases s
  rfl

/-- Helper: the empty string is a right unit. -/
theorem string_append_empty (s : String) : s ++ "" = s := by
  cases s
  exact congrArg String.mk (List.append_nil _)

/-- Helper: string append is associative. -/
theorem string_append_assoc (a b c : String) : a ++ b ++ c = a ++ (b ++ c) := by
  cases a
  cases b
  cases c
  exact congrArg String.mk (List.append_assoc _ _ _)

/-- Helper: while only data events arrive and the promise is unsettled, the
fold just accumulates the two streams. -/
theorem foldl_nonSettling (timeoutMs : Nat) (pre : List PEvent) :
    ∀ st : InvokeState, (∀ e ∈ pre, e.settles = false) →
      pre.foldl (stepEvent timeoutMs) st =
        { st with outputPath := st.outputPath ++ stdoutAcc pre,
                  errorOutput := st.errorOutput ++ stderrAcc pre } := by
  induction pre with
  | nil =>
    intro st _
    simp [stdoutAcc, stderrAcc, string_append_empty]
  | cons e pre ih =>
    intro st h
    have hh := h e (List.mem_cons_self e pre)
    have ht := fun x hx => h x (List.mem_cons_of_mem e hx)
    cases e with
    | stdoutData s =>
      rw [List.foldl_cons, ih _ ht]
      simp [stepEvent, stdoutAcc, stderrAcc, string_append_assoc]
    | stderrData s =>
      rw [List.foldl_cons, ih _ ht]
      simp [stepEvent, stdoutAcc, stderrAcc, string_append_assoc]
    | timeoutFire => simp [PEvent.settles] at hh
    | close code => simp [PEvent.settles] at hh
    | errorEvent m => simp [PEvent.settles] at hh

/-- Helper: once `processCompleted` is set, no later event changes the flag,
the settlements, or the kill mark. -/
theorem foldl_completed (timeoutMs : Nat) (evs : List PEvent) :
    ∀ st : InvokeState, st.processCompleted = true →
      (evs.foldl (stepEvent timeoutMs) st).processCompleted = true
      ∧ (evs.foldl (stepEvent timeoutMs) st).settled = st.settled
      ∧ (evs.foldl (stepEvent timeoutMs) st).killed = st.killed := by
  induction evs with
  | nil => exact fun st hc => ⟨hc, rfl, rfl⟩
  | cons e evs ih =>
    intro st hc
    have h1 : (stepEvent timeoutMs st e).processCompleted = true := by
      cases e <;> simp [stepEvent, hc]
    obtain ⟨a1, a2, a3⟩ := ih (stepEvent timeoutMs st e) h1
    rw [List.foldl_cons]
    refine ⟨a1, ?_, ?_⟩
    · rw [a2]
      cases e <;> simp [stepEvent, hc]
    · rw [a3]
      cases e <;> simp [stepEvent, hc]

/-- Helper: a settling event leaves the `processCompleted` flag set. -/
theorem stepEvent_settling_completes (timeoutMs : Nat) (st : InvokeState) (e : PEvent)
    (he : e.settles = true) : (stepEvent timeoutMs st e).processCompleted = true := by
  by_cases hc : st.processCompleted = true
  · cases e <;> simp [stepEvent, hc]
  · rw [Bool.not_eq_true] at hc
    cases e with
    | stdoutData s => simp [PEvent.settles] at he
    | stderrData s => simp [PEvent.settles] at he
    | timeoutFire => simp [stepEvent, hc]
    | close code =>
      simp only [stepEvent, hc]
      split_ifs <;> first | rfl | contradiction
    | errorEvent m => simp [stepEvent, hc]

/-- Helper: every event preserves "the settlement count is 1 when the flag
is set, else 0". -/
theorem stepEvent_length (timeoutMs : Nat) (st : InvokeState) (e : PEvent)
    (hst : st.settled.length = if st.processCompleted then 1 else 0) :
    (stepEvent timeoutMs st e).settled.length =
      if (stepEvent timeoutMs st e).processCompleted then 1 else 0 := by
  by_cases hc : st.processCompleted = true
  · cases e <;> simp [stepEvent, hc, hst]
  · rw [Bool.not_eq_true] at hc
    have hz : st.settled.length = 0 := by rw [hst, hc]; rfl
    cases e with
    | stdoutData s => simpa [stepEvent] using hst
    | stderrData s => simpa [stepEvent] using hst
    | timeoutFire => simp [stepEvent, hc, hz]
    | close code =>
      simp only [stepEvent, hc]
      split_ifs <;> simp_all [hz]
    | errorEvent m => simp [stepEvent, hc, hz]

/-- Helper: the settlement count always equals 1 or 0 according to the
`processCompleted` flag, and any settling event sets the flag. -/
theorem foldl_settled_length (timeoutMs : Nat) (evs : List PEvent) :
    ∀ st : InvokeState,
      st.settled.length = (if st.processCompleted then 1 else 0) →
      ((evs.foldl (stepEvent timeoutMs) st).settled.length =
          (if (evs.foldl (stepEvent timeoutMs) st).processCompleted then 1 else 0)
       ∧ ((∃ e ∈ evs, e.settles = true) →
          (evs.foldl (stepEvent timeoutMs) st).processCompleted = true)) := by
  induction evs with
  | nil =>
    intro st hst
    exact ⟨hst, by simp⟩
  | cons e evs ih =>
    intro st hst
    obtain ⟨b1, b2⟩ := ih (stepEvent timeoutMs st e) (stepEvent_length timeoutMs st e hst)
    rw [List.foldl_cons]
    refine ⟨b1, ?_⟩
    rintro ⟨x, hx, hxs⟩
    rcases List.mem_cons.mp hx with rfl | hx2
    · exact (foldl_completed timeoutMs evs _
        (stepEvent_settling_completes timeoutMs st x hxs)).1
    · exact b2 ⟨x, hx2, hxs⟩

/-- C5: every invocation settles its promise at most once, and exactly once
as soon as any of the timer, the `close` event or the spawn `error` event is
delivered — so the first of them to occur wins and later ones are
no-ops. -/
theorem invoker_single_outcome (timeoutMs : Nat) (evs : List PEvent) :
    (runInvoker timeoutMs evs).settled.length ≤ 1
    ∧ ((∃ e ∈ evs, e.settles = true) → (runInvoker timeoutMs evs).settled.length = 1)
    ∧ (∀ pre e post, evs = pre ++ e :: post → (∀ x ∈ pre, x.settles = false) →
        e.settles = true →
        (runInvoker timeoutMs evs).settled = (runInvoker timeoutMs (pre ++ [e])).settled) := by
  obtain ⟨h1, h2⟩ := foldl_settled_length timeoutMs evs initInvokeState (by rfl)
  refine ⟨?_, ?_, ?_⟩
  · rw [runInvoker, h1]
    split <;> simp
  · intro hex
    rw [runInvoker, h1, h2 hex]
    rfl
  · intro pre e post heq hpre hes
    subst heq
    rw [runInvoker, runInvoker, List.foldl_append, List.foldl_append,
      List.foldl_cons, List.foldl_cons]
    have hflag := stepEvent_settling_completes timeoutMs
      (pre.foldl (stepEvent timeoutMs) initInvokeState) e hes
    exact (foldl_completed timeoutMs post _ hflag).2.1

/-- Witness for C5: a run that streams some stdout, exits 0, and then sees a
late timer firing settles exactly once. -/
theorem invoker_single_outcome_witness :
    (∃ e ∈ [PEvent.stdoutData "/outputs/x.wav", PEvent.close 0, PEvent.timeoutFire],
        e.settles = true)
    ∧ (runInvoker 30000
        [PEvent.stdoutData "/outputs/x.wav", PEvent.close 0, PEvent.timeoutFire]).settled.length
      = 1
    ∧ (∀ x ∈ [PEvent.stdoutData "/outputs/x.wav"], x.settles = false)
    ∧ (runInvoker 30000
        [PEvent.stdoutData "/outputs/x.wav", PEvent.close 0, PEvent.timeoutFire]).settled
      = (runInvoker 30000 [PEvent.stdoutData "/outputs/x.wav", PEvent.close 0]).settled :=
  ⟨by decide,
   (invoker_single_outcome 30000
      [PEvent.stdoutData "/outputs/x.wav", PEvent.close 0, PEvent.timeoutFire]).2.1 (by decide),
   by decide,
   (invoker_single_outcome 30000
      [PEvent.stdoutData "/outputs/x.wav", PEvent.close 0, PEvent.timeoutFire]).2.2
     [PEvent.stdoutData "/outputs/x.wav"] (PEvent.close 0) [PEvent.timeoutFire]
     rfl (by decide) rfl⟩

/-- Helper: the drained prefix state, with `initInvokeState` folded in. -/
theorem runInvoker_drain (timeoutMs : Nat) (pre : List PEvent)
    (hpre : ∀ e ∈ pre, e.settles = false) :
    pre.foldl (stepEvent timeoutMs) initInvokeState =
      { outputPath := stdoutAcc pre, errorOutput := stderrAcc pre,
        processCompleted := false, killed := false, settled := [] } := by
  rw [foldl_nonSettling timeoutMs pre initInvokeState hpre]
  simp [initInvokeState, string_empty_append]

/-- Helper: from an unsettled state, the timer firing kills the process and
appends the timeout rejection, and everything after it is a no-op. -/
theorem run_after_timeout (timeoutMs : Nat) (post : List PEvent) (st : InvokeState)
    (hc : st.processCompleted = false) :
    ((PEvent.timeoutFire :: post).foldl (stepEvent timeoutMs) st).settled
        = st.settled ++ [InvokeResult.err (timeoutMessage timeoutMs)]
    ∧ ((PEvent.timeoutFire :: post).foldl (stepEvent timeoutMs) st).killed = true := by
  rw [List.foldl_cons]
  have hstep : stepEvent timeoutMs st PEvent.timeoutFire =
      { st with processCompleted := true, killed := true,
                settled := st.settled ++ [InvokeResult.err (timeoutMessage timeoutMs)] } := by
    simp [stepEvent, hc]
  rw [hstep]
  obtain ⟨c1, c2, c3⟩ := foldl_completed timeoutMs post
    { st with processCompleted := true, killed := true,
              settled := st.settled ++ [InvokeResult.err (timeoutMessage timeoutMs)] } rfl
  rw [c2, c3]
  exact ⟨rfl, rfl⟩

/-- C3: when the timer fires before the subprocess has exited (and before
any spawn error), the subprocess is killed and the invocation settles once,
rejected with the message naming the timeout duration; the orchestrator maps
that rejection to the `failed` transition carrying the same message. -/
theorem timeout_kills_and_fails (timeoutMs : Nat) (pre post : List PEvent)
    (hpre : ∀ e ∈ pre, e.settles = false) (a : AudioData) (now dur : Nat) :
    (runInvoker timeoutMs (pre ++ PEvent.timeoutFire :: post)).killed = true
    ∧ (runInvoker timeoutMs (pre ++ PEvent.timeoutFire :: post)).settled
        = [InvokeResult.err (timeoutMessage timeoutMs)]
    ∧ (processRecord true (InvokeResult.err (timeoutMessage timeoutMs)) now dur a).1
        = ProcessResult.failedResult (timeoutMessage timeoutMs)
    ∧ (processRecord true (InvokeResult.err (timeoutMessage timeoutMs)) now dur a).2.status
        = JobStatus.failed
    ∧ (processRecord true (InvokeResult.err (timeoutMessage timeoutMs)) now dur a).2.errorMessage
        = some (timeoutMessage timeoutMs) := by
  have hdrain := runInvoker_drain timeoutMs pre hpre
  obtain ⟨r1, r2⟩ := run_after_timeout timeoutMs post
    (pre.foldl (stepEvent timeoutMs) initInvokeState) (by rw [hdrain])
  refine ⟨?_, ?_, rfl, rfl, rfl⟩
  · rw [runInvoker, List.foldl_append]
    exact r2
  · rw [runInvoker, List.foldl_append, r1, hdrain]
    rfl

/-- Witness for C3: stderr noise, then the timer, then a late exit: the kill
happens, the single settlement is the timeout rejection, and a fresh job
record transitions to `failed` with that message. -/
theorem timeout_kills_and_fails_witness :
    (∀ e ∈ [PEvent.stderrData "warming up"], e.settles = false)
    ∧ (runInvoker 100 [PEvent.stderrData "warming up", PEvent.timeoutFire,
          PEvent.close 0]).killed = true
    ∧ (runInvoker 100 [PEvent.stderrData "warming up", PEvent.timeoutFire,
          PEvent.close 0]).settled = [InvokeResult.err (timeoutMessage 100)]
    ∧ (processRecord true (InvokeResult.err (timeoutMessage 100)) 7 1
          (uploadRecord "a.wav" 10 "wav" "/uploads/a.wav" 3)).2.status = JobStatus.failed :=
  ⟨by decide,
   (timeout_kills_and_fails 100 [PEvent.stderrData "warming up"] [PEvent.close 0]
      (by decide) (uploadRecord "a.wav" 10 "wav" "/uploads/a.wav" 3) 7 1).1,
   (timeout_kills_and_fails 100 [PEvent.stderrData "warming up"] [PEvent.close 0]
      (by decide) (uploadRecord "a.wav" 10 "wav" "/uploads/a.wav" 3) 7 1).2.1,
   (timeout_kills_and_fails 100 [PEvent.stderrData "warming up"] [PEvent.close 0]
      (by decide) (uploadRecord "a.wav" 10 "wav" "/uploads/a.wav" 3) 7 1).2.2.2.1⟩

/-- Helper: from an unsettled state, exit code 0 resolves with the trimmed
accumulated stdout, or rejects when that is empty; later events are
no-ops. -/
theorem run_after_close_zero (timeoutMs : Nat) (post : List PEvent) (st : InvokeState)
    (hc : st.processCompleted = false) :
    ((PEvent.close 0 :: post).foldl (stepEvent timeoutMs) st).settled
      = st.settled ++
        [if jsTrim st.outputPath = "" then
            InvokeResult.err "Python process succeeded but returned no output path"
         else InvokeResult.ok (jsTrim st.outputPath)] := by
  rw [List.foldl_cons]
  by_cases hz : jsTrim st.outputPath = ""
  · have hstep : stepEvent timeoutMs st (PEvent.close 0) =
        { st with processCompleted := true,
                  settled := st.settled ++
                    [InvokeResult.err "Python process succeeded but returned no output path"] } := by
      simp [stepEvent, hc, hz]
    rw [hstep]
    obtain ⟨c1, c2, c3⟩ := foldl_completed timeoutMs post
      { st with processCompleted := true,
                settled := st.settled ++
                  [InvokeResult.err "Python process succeeded but returned no output path"] } rfl
    rw [c2, if_pos hz]
  · have hstep : stepEvent timeoutMs st (PEvent.close 0) =
        { st with processCompleted := true,
                  settled := st.settled ++ [InvokeResult.ok (jsTrim st.outputPath)] } := by
      simp [stepEvent, hc, hz]
    rw [hstep]
    obtain ⟨c1, c2, c3⟩ := foldl_completed timeoutMs post
      { st with processCompleted := true,
                settled := st.settled ++ [InvokeResult.ok (jsTrim st.outputPath)] } rfl
    rw [c2, if_neg hz]

/-- C4: when the subprocess exits 0 before the timer fires, the invocation
resolves with the trimmed accumulated stdout when that is nonempty — and the
orchestrator then records it as `outputPath` on the `completed` transition —
while an empty trimmed stdout rejects the invocation and the orchestrator
transitions the job to `failed`, never to `completed`. -/
theorem exit_zero_outcome (timeoutMs : Nat) (pre post : List PEvent)
    (hpre : ∀ e ∈ pre, e.settles = false) (a : AudioData) (now dur : Nat) :
    (jsTrim (stdoutAcc pre) ≠ "" →
      (runInvoker timeoutMs (pre ++ PEvent.close 0 :: post)).settled
          = [InvokeResult.ok (jsTrim (stdoutAcc pre))]
      ∧ (processRecord true (InvokeResult.ok (jsTrim (stdoutAcc pre))) now dur a).2.status
          = JobStatus.completed
      ∧ (processRecord true (InvokeResult.ok (jsTrim (stdoutAcc pre))) now dur a).2.outputPath
          = some (jsTrim (stdoutAcc pre)))
    ∧ (jsTrim (stdoutAcc pre) = "" →
      (runInvoker timeoutMs (pre ++ PEvent.close 0 :: post)).settled
          = [InvokeResult.err "Python process succeeded but returned no output path"]
      ∧ (processRecord true
            (InvokeResult.err "Python process succeeded but returned no output path")
            now dur a).2.status = JobStatus.failed
      ∧ (processRecord true
            (InvokeResult.err "Python process succeeded but returned no output path")
            now dur a).2.status ≠ JobStatus.completed) := by
  have hdrain := runInvoker_drain timeoutMs pre hpre
  have hrun := run_after_close_zero timeoutMs post
    (pre.foldl (stepEvent timeoutMs) initInvokeState) (by rw [hdrain])
  rw [hdrain] at hrun
  simp only [List.nil_append] at hrun
  constructor
  · intro hne
    refine ⟨?_, rfl, rfl⟩
    rw [runInvoker, List.foldl_append, hdrain, hrun, if_neg hne]
  · intro hz
    refine ⟨?_, rfl, by simp [processRecord]⟩
    rw [runInvoker, List.foldl_append, hdrain, hrun, if_pos hz]

/-- Witness for C4: stdout `/outputs/x.wav` with a trailing newline, exit 0:
the single settlement is the trimmed path. -/
theorem exit_zero_outcome_witness :
    (∀ e ∈ [PEvent.stdoutData "/outputs/x.wav\n"], e.settles = false)
    ∧ jsTrim (stdoutAcc [PEvent.stdoutData "/outputs/x.wav\n"]) ≠ ""
    ∧ (runInvoker 30000 [PEvent.stdoutData "/outputs/x.wav\n", PEvent.close 0]).settled
        = [InvokeResult.ok "/outputs/x.wav"] :=
  ⟨by decide, by decide,
   ((exit_zero_outcome 30000 [PEvent.stdoutData "/outputs/x.wav\n"] [] (by decide)
        (uploadRecord "a.wav" 10 "wav" "/uploads/a.wav" 3) 9 2).1 (by decide)).1.trans
     (by decide)⟩

/-- C1: when the job id is found but its source file is gone from disk,
`processAudio` responds 404 before any mutation: the call returns
`inputMissing` for every conceivable worker outcome (the worker is never
consulted), the registry is returned unchanged, and the record keeps status
`uploaded` with no `errorMessage`/`failedAt`. -/
theorem processJob_inputMissing (reg : Registry) (audioId : String)
    (invoke : InvokeResult) (now dur : Nat) (a : AudioData)
    (hget : getJob reg audioId = some a) (hstatus : a.status = JobStatus.uploaded) :
    processJob reg audioId false invoke now dur = (ProcessResult.inputMissing, reg)
    ∧ getJob (processJob reg audioId false invoke now dur).2 audioId = some a
    ∧ a.status = JobStatus.uploaded := by
  have h1 : processJob reg audioId false invoke now dur
      = (ProcessResult.inputMissing, reg) := by
    unfold processJob
    rw [hget]
    rfl
  refine ⟨h1, ?_, hstatus⟩
  rw [h1]
  exact hget

/-- Witness for C1 on a freshly created registry entry whose file is
missing. -/
theorem processJob_inputMissing_witness :
    getJob (createJob [] "id1" "a.wav" 10 "wav" "/uploads/a.wav" 3) "id1"
        = some (uploadRecord "a.wav" 10 "wav" "/uploads/a.wav" 3)
    ∧ (uploadRecord "a.wav" 10 "wav" "/uploads/a.wav" 3).status = JobStatus.uploaded
    ∧ processJob (createJob [] "id1" "a.wav" 10 "wav" "/uploads/a.wav" 3) "id1" false
        (InvokeResult.ok "/outputs/x.wav") 9 2
      = (ProcessResult.inputMissing, createJob [] "id1" "a.wav" 10 "wav" "/uploads/a.wav" 3) :=
  ⟨rfl, rfl,
   (processJob_inputMissing (createJob [] "id1" "a.wav" 10 "wav" "/uploads/a.wav" 3) "id1"
      (InvokeResult.ok "/outputs/x.wav") 9 2
      (uploadRecord "a.wav" 10 "wav" "/uploads/a.wav" 3) rfl rfl).1⟩

/-- C6: a record created by `handleUpload` and read back by `getAudioInfo`
has status `uploaded` with `outputPath` and `errorMessage` both absent, and
along every state a single `processAudio` call takes the record through,
both fields stay absent while the status is `uploaded` or `processing` and
exactly the matching one is populated once the status is terminal. -/
theorem job_record_invariant (reg : Registry) (audioId filename : String) (size : Nat)
    (format filepath : String) (now tNow dur : Nat)
    (fileExists : Bool) (invoke : InvokeResult) :
    getJob (createJob reg audioId filename size format filepath now) audioId
      = some (uploadRecord filename size format filepath now)
    ∧ (uploadRecord filename size format filepath now).status = JobStatus.uploaded
    ∧ (uploadRecord filename size format filepath now).outputPath = none
    ∧ (uploadRecord filename size format filepath now).errorMessage = none
    ∧ ∀ b ∈ callTrace fileExists invoke tNow dur
          (uploadRecord filename size format filepath now),
        exclusiveOutputError b := by
  refine ⟨?_, rfl, rfl, rfl, ?_⟩
  · unfold getJob createJob
    rw [List.find?_cons_of_pos _ (by simp)]
    rfl
  · intro b hb
    cases fileExists <;> cases invoke <;>
      simp only [callTrace, stepCall, initCallState, List.mem_cons,
        List.mem_singleton, List.not_mem_nil, or_false] at hb <;>
      rcases hb with rfl | rfl | rfl <;>
      simp [exclusiveOutputError, uploadRecord]

/-- Witness for C6: the freshly uploaded record is on the single-call trace
and satisfies the field invariant. -/
theorem job_record_invariant_witness :
    (uploadRecord "a.wav" 10 "wav" "/uploads/a.wav" 3) ∈
        callTrace true (InvokeResult.ok "/outputs/x.wav") 9 2
          (uploadRecord "a.wav" 10 "wav" "/uploads/a.wav" 3)
    ∧ exclusiveOutputError (uploadRecord "a.wav" 10 "wav" "/uploads/a.wav" 3) :=
  ⟨by decide,
   (job_record_invariant [] "id1" "a.wav" 10 "wav" "/uploads/a.wav" 3 9 2 true
      (InvokeResult.ok "/outputs/x.wav")).2.2.2.2 _ (by decide)⟩

/-- C9 counterexample: nothing guards per-id mutation.  With the schedule
first-request, second-request, first-request, second-request on the same
record (file present), both requests pass the existence check and set
`processing`, then both perform terminal transitions; the surviving record
ends with status `failed` yet `outputPath` **and** `errorMessage` both
populated. -/
theorem perJob_guard_counterexample :
    (runSchedule true (InvokeResult.ok "/outputs/a.wav") (InvokeResult.err "boom") 9 2
        [false, true] (uploadRecord "a.wav" 10 "wav" "/uploads/a.wav" 3)).1.status
      = JobStatus.processing
    ∧ (runSchedule true (InvokeResult.ok "/outputs/a.wav") (InvokeResult.err "boom") 9 2
        [false, true, false, true] (uploadRecord "a.wav" 10 "wav" "/uploads/a.wav" 3)).2.1.result
      = some (ProcessResult.completedResult "/outputs/a.wav" 2)
    ∧ (runSchedule true (InvokeResult.ok "/outputs/a.wav") (InvokeResult.err "boom") 9 2
        [false, true, false, true] (uploadRecord "a.wav" 10 "wav" "/uploads/a.wav" 3)).2.2.result
      = some (ProcessResult.failedResult "boom")
    ∧ (runSchedule true (InvokeResult.ok "/outputs/a.wav") (InvokeResult.err "boom") 9 2
        [false, true, false, true] (uploadRecord "a.wav" 10 "wav" "/uploads/a.wav" 3)).1.status
      = JobStatus.failed
    ∧ (runSchedule true (InvokeResult.ok "/outputs/a.wav") (InvokeResult.err "boom") 9 2
        [false, true, false, true]
        (uploadRecord "a.wav" 10 "wav" "/uploads/a.wav" 3)).1.outputPath
      = some "/outputs/a.wav"
    ∧ (runSchedule true (InvokeResult.ok "/outputs/a.wav") (InvokeResult.err "boom") 9 2
        [false, true, false, true]
        (uploadRecord "a.wav" 10 "wav" "/uploads/a.wav" 3)).1.errorMessage
      = some "boom" := by
  decide

/-- C9 amended: individual field assignments are atomic event-loop segments
and nothing guards a whole request — for every pair of worker outcomes, two
interleaved `processAudio` requests on the same id both set `processing`
(after two segments both sit before their worker `await` with the record
`processing`) and then both perform their terminal transitions. -/
theorem perJob_mutation_unguarded (a : AudioData) (i1 i2 : InvokeResult) (now dur : Nat) :
    (runSchedule true i1 i2 now dur [false, true] a).1.status = JobStatus.processing
    ∧ (runSchedule true i1 i2 now dur [false, true] a).2.1.pc = 1
    ∧ (runSchedule true i1 i2 now dur [false, true] a).2.2.pc = 1
    ∧ (runSchedule true i1 i2 now dur [false, true, false, true] a).2.1.result
        = some (terminalResult i1 dur)
    ∧ (runSchedule true i1 i2 now dur [false, true, false, true] a).2.2.result
        = some (terminalResult i2 dur) := by
  cases i1 <;> cases i2 <;>
    simp [runSchedule, stepCall, initCallState, terminalResult]

end AiVoiceTuning
